import Mathlib

/-!
Verification of the write-command pipeline of a partitioned, replicated
key-value store (raftstore-v2 `operation/command/write/mod.rs`).

The Apply side (`apply_put`, `apply_delete`, `apply_delete_range`,
`apply_ingest`) and the Peer side (`on_simple_write`,
`propose_pending_writes`) are embedded shallowly.  Helpers that live
outside the provided source (`should_skip`, `check_key_in_region`,
`check_sst_for_ingestion`, `flush`, the `SimpleWriteReqEncoder`,
proposal control, response channels) are modelled from the spec; each
such definition carries a doc comment starting `Modelled from the spec:`.
Bytes are `Nat`, keys are byte lists ordered lexicographically, and log
indexes are `Nat` with `u64MAX = 2 ^ 64 - 1` standing for `u64::MAX`.
-/

deriving instance DecidableEq for Except

namespace WritePipeline

/-- Byte strings (keys, values, encoded payloads) as lists of bytes. -/
abbrev Key := List Nat

/-- A region epoch: configuration version plus boundary (split/merge) version. -/
structure Epoch where
  conf_ver : Nat
  version : Nat
deriving DecidableEq

/-- Partition (region) metadata used by the write pipeline: id, key range
and current epoch. -/
structure Region where
  id : Nat
  start_key : Key
  end_key : Key
  epoch : Epoch
deriving DecidableEq

/-- The fields of `RaftRequestHeader` that the write pipeline inspects:
partition id, epoch and term. -/
structure Header where
  region_id : Nat
  epoch : Epoch
  term : Nat
deriving DecidableEq

/-- Errors surfaced by the pipeline (the recoverable ones; storage-level
failures are fatal panics and have no representation as return values). -/
inductive WError where
  | keyNotInRegion (key : Key) (region_id : Nat)
  | epochNotMatch (region_id : Nat)
  | regionRemoved (region_id : Nat)
  | mergingMode (region_id : Nat)
  | sstRangeError (region_id : Nat)
  | proposeFailed
deriving DecidableEq

/-- Strict lexicographic byte-string order, the order used by the storage
engine for keys. -/
def keyLt : Key → Key → Bool
  | [], [] => false
  | [], _ :: _ => true
  | _ :: _, [] => false
  | a :: as, b :: bs =>
    if a < b then true
    else if a = b then keyLt as bs
    else false

/-- Non-strict lexicographic byte-string order. -/
def keyLe (a b : Key) : Bool := a = b || keyLt a b

/-- `u64::MAX`, the distinguished log index that marks unsafe writes. -/
def u64MAX : Nat := 2 ^ 64 - 1

/-- Modelled from `engine_traits::data_cf_offset` (not under `src/`):
the offset of a data column family inside the per-family tables; the
data column families are `default` (also spelled `""`), `lock`, `write`. -/
def data_cf_offset (cf : String) : Nat :=
  if cf = "" || cf = "default" then 0
  else if cf = "lock" then 1
  else if cf = "write" then 2
  else 0

/-- A mutation staged in the write buffer (RocksDB write batch). -/
inductive WbOp where
  | put (cf : String) (key : Key) (value : List Nat)
  | del (cf : String) (key : Key)
deriving DecidableEq

/-- An SST file descriptor carrying the key-range bounds relevant to
ingestion validation. -/
structure SstMeta where
  cf : String
  start_key : Key
  end_key : Key
deriving DecidableEq

/-- The Apply-engine state for one partition: region metadata, the
ModificationIndex table (one entry per data column family), the lazily
opened staging write buffer, the scratch key buffer, the running size
delta, optional bucket statistics, the importer's set of SST files, and
the storage engine contents reached by flush/ingest. -/
structure ApplyState where
  region : Region
  modifications : List Nat
  write_batch : Option (List WbOp)
  key_buffer : Key
  size_diff_hint : Int
  buckets : Option (List (Key × Nat))
  importer_files : List SstMeta
  tablet_writes : List WbOp
  tablet_ingested : List SstMeta
deriving DecidableEq

/-- Modelled from the spec: `should_skip` — an operation whose log index
is ≤ the stored ModificationIndex entry for its column family has
already been applied and must be skipped. -/
def should_skip (st : ApplyState) (off : Nat) (index : Nat) : Bool :=
  decide (index ≤ st.modifications.getD off 0)

/-- Modelled from the spec: `util::check_key_in_region` — the key must
fall within the partition's current key range (inclusive start,
exclusive end, empty end meaning unbounded). -/
def check_key_in_region (key : Key) (r : Region) : Except WError Unit :=
  if keyLe r.start_key key && (r.end_key = [] || keyLt key r.end_key) then
    Except.ok ()
  else
    Except.error (WError.keyNotInRegion key r.id)

/-- Modelled from the spec: `keys::data_key` — translation of a user key
to the storage engine's internal key encoding (a one-byte data prefix). -/
def data_key (key : Key) : Key := 122 :: key

/-- Modelled from the spec: the staging write buffer is opened lazily on
first mutation within an apply cycle. -/
def ensure_write_buffer (st : ApplyState) : ApplyState :=
  match st.write_batch with
  | none => { st with write_batch := some [] }
  | some _ => st

/-- Modelled from the spec: bucket statistics record the key and value
size of every applied mutation when bucket tracking is enabled. -/
def buckets_write_key (st : ApplyState) (key : Key) (vlen : Nat) : ApplyState :=
  match st.buckets with
  | some s => { st with buckets := some (s ++ [(key, vlen)]) }
  | none => st

/-- `Apply::apply_put`: skip if already applied, validate the key range,
stage the put into the write buffer, update the size delta, and advance
the ModificationIndex entry unless the index is `u64::MAX`. -/
def apply_put (st : ApplyState) (cf : String) (index : Nat) (key value : List Nat) :
    ApplyState × Except WError Unit :=
  let off := data_cf_offset cf
  if should_skip st off index then (st, Except.ok ())
  else
    match check_key_in_region key st.region with
    | Except.error e => (st, Except.error e)
    | Except.ok _ =>
      let st := buckets_write_key st key value.length
      let st := { st with key_buffer := data_key key }
      let st := ensure_write_buffer st
      let st := { st with
        write_batch := some (st.write_batch.getD [] ++ [WbOp.put cf st.key_buffer value]) }
      let st := { st with
        size_diff_hint := st.size_diff_hint + ((st.key_buffer.length + value.length : Nat) : Int) }
      let st :=
        if index ≠ u64MAX then { st with modifications := st.modifications.set off index }
        else st
      (st, Except.ok ())

/-- `Apply::apply_delete`: skip if already applied, validate the key
range, stage the delete into the write buffer, update the (negative)
size delta, and advance the ModificationIndex entry unless the index is
`u64::MAX`. -/
def apply_delete (st : ApplyState) (cf : String) (index : Nat) (key : List Nat) :
    ApplyState × Except WError Unit :=
  let off := data_cf_offset cf
  if should_skip st off index then (st, Except.ok ())
  else
    match check_key_in_region key st.region with
    | Except.error e => (st, Except.error e)
    | Except.ok _ =>
      let st := buckets_write_key st key 0
      let st := { st with key_buffer := data_key key }
      let st := ensure_write_buffer st
      let st := { st with
        write_batch := some (st.write_batch.getD [] ++ [WbOp.del cf st.key_buffer]) }
      let st := { st with
        size_diff_hint := st.size_diff_hint - ((st.key_buffer.length : Nat) : Int) }
      let st :=
        if index ≠ u64MAX then { st with modifications := st.modifications.set off index }
        else st
      (st, Except.ok ())

/-- `Apply::apply_delete_range`: a deliberate no-op in this core (range
deletion is delegated to the split/merge cleanup path). -/
def apply_delete_range (st : ApplyState) (_cf : String) (_index : Nat)
    (_start_key _end_key : Key) (_notify_only : Bool) :
    ApplyState × Except WError Unit :=
  (st, Except.ok ())

/-- Modelled from the spec: `check_sst_for_ingestion` — an SST
descriptor is valid for ingestion only if its key range lies within the
partition's current range. -/
def check_sst_for_ingestion (sst : SstMeta) (r : Region) : Except WError Unit :=
  if keyLe r.start_key sst.start_key && (r.end_key = [] || keyLe sst.end_key r.end_key) then
    Except.ok ()
  else
    Except.error (WError.sstRangeError r.id)

/-- Modelled from the spec: the importer's `validate` — deeper integrity
validation of a range-checked descriptor, returning its metadata; a
structurally corrupt descriptor aborts the process and therefore has no
return value in this model. -/
def sst_validate (sst : SstMeta) : SstMeta := sst

/-- Modelled from the spec: `Apply::flush` — commits all staged
mutations of the write buffer to the storage engine as one atomic write
and closes the buffer. -/
def flush (st : ApplyState) : ApplyState :=
  { st with
    tablet_writes := st.tablet_writes ++ st.write_batch.getD []
    write_batch := none }

/-- The validation loop of `Apply::apply_ingest`: range-check each
descriptor in order and collect the validated metadata; the first
descriptor failing the range check is reported together with its error. -/
def ingest_check_loop (r : Region) : List SstMeta → Except (SstMeta × WError) (List SstMeta)
  | [] => Except.ok []
  | sst :: rest =>
    match check_sst_for_ingestion sst r with
    | Except.error e => Except.error (sst, e)
    | Except.ok _ =>
      match ingest_check_loop r rest with
      | Except.error p => Except.error p
      | Except.ok infos => Except.ok (sst_validate sst :: infos)

/-- `Apply::apply_ingest`: validate every descriptor against the
partition's range; on the first failure delete that descriptor and
return the error; otherwise flush the staging buffer and ingest all
validated descriptors atomically. -/
def apply_ingest (st : ApplyState) (ssts : List SstMeta) : ApplyState × Except WError Unit :=
  match ingest_check_loop st.region ssts with
  | Except.error (sst, e) =>
    ({ st with importer_files := st.importer_files.erase sst }, Except.error e)
  | Except.ok infos =>
    let st := flush st
    ({ st with tablet_ingested := st.tablet_ingested ++ infos }, Except.ok ())

/-- Modelled from the spec: the pending write batch
(`SimpleWriteReqEncoder`) — a header, the accumulated encoded
operations, the attached response channels, the configured size limit,
and whether the proposed callbacks are to be notified for this batch. -/
structure Encoder where
  header : Header
  buf : List Nat
  channels : List Nat
  size_limit : Nat
  notify_proposed : Bool
deriving DecidableEq

/-- Modelled from the spec: per-partition proposal control — conflict
marker for an in-progress boundary change, merge-lifecycle flags, and
the queue of deferred response channels. -/
structure ProposalControl where
  conflict : Bool
  pending_prepare_merge : Bool
  merging : Bool
  delayed : List Nat
deriving DecidableEq

/-- Modelled from the spec: a proposal handed to the replicated log:
the encoded batch plus the response channels attached to be completed
once the entry commits and is applied. -/
structure Proposal where
  header : Header
  data : List Nat
  chs : List Nat
  call_proposed : Bool
deriving DecidableEq

/-- The Peer (leader-side) state relevant to write submission: region
metadata, serving flag, term-catch-up flag, ready flag, the optional
pending batch, proposal control, the proposals handed to the log, and
the terminal notifications issued to response channels so far
(channels are identified by `Nat` ids). -/
structure PeerState where
  region : Region
  serving : Bool
  applied_to_current_term : Bool
  has_ready : Bool
  simple_write_encoder : Option Encoder
  proposal_control : ProposalControl
  proposals : List Proposal
  notifications : List (Nat × WError)
deriving DecidableEq

/-- The store-context fields the write path consults: the maximum
log-entry size, and (modelled from the spec) the outcome the replicated
log gives to the next proposal (`none` means accepted). -/
structure StoreContext where
  raft_entry_max_size : Nat
  propose_result : Option WError
deriving DecidableEq

/-- Modelled from the spec: the proposal size limit is a configured
fraction (`MAX_PROPOSAL_SIZE_RATIO`) of the maximum log-entry size. -/
def proposal_size_limit (ctx : StoreContext) : Nat :=
  ctx.raft_entry_max_size * 9 / 10

/-- Modelled from the spec: `SimpleWriteReqEncoder::new` — a fresh
batch holding the header, the first operation's encoding and no
channels yet. -/
def encoder_new (header : Header) (data : List Nat) (size_limit : Nat)
    (notify_proposed : Bool) : Encoder :=
  { header := header, buf := data, channels := [], size_limit := size_limit,
    notify_proposed := notify_proposed }

/-- Modelled from the spec: `amend` — appends the operation in order
only when the candidate header's partition id, epoch and term all match
the batch's header and the accumulated size stays within the configured
limit; otherwise returns `false` and performs no mutation (a full batch
forces the caller to flush, keeping the encoded size bounded). -/
def amend (enc : Encoder) (header : Header) (data : List Nat) : Bool × Encoder :=
  if enc.header.region_id = header.region_id ∧ enc.header.epoch = header.epoch ∧
      enc.header.term = header.term ∧ enc.buf.length + data.length ≤ enc.size_limit then
    (true, { enc with buf := enc.buf ++ data })
  else
    (false, enc)

/-- Modelled from the spec: attach one more response channel to the
pending batch. -/
def add_response_channel (enc : Encoder) (ch : Nat) : Encoder :=
  { enc with channels := enc.channels ++ [ch] }

/-- Modelled from the spec: `validate_command` — epoch validation of an
incoming request against current partition metadata. -/
def validate_command (header : Header) (r : Region) : Except WError Unit :=
  if header.region_id = r.id ∧ header.epoch = r.epoch then Except.ok ()
  else Except.error (WError.epochNotMatch r.id)

/-- Modelled from the spec: `util::compare_region_epoch` — the flush-time
re-check of the batch's epoch against the partition's current epoch. -/
def compare_region_epoch (e : Epoch) (r : Region) : Except WError Unit :=
  if e = r.epoch then Except.ok () else Except.error (WError.epochNotMatch r.id)

/-- Modelled from the spec: the outcome the replicated log gives to a
proposal in this context. -/
def proposeRes (ctx : StoreContext) : Except WError Unit :=
  match ctx.propose_result with
  | some e => Except.error e
  | none => Except.ok ()

/-- Modelled from the spec: `post_propose_command` — on propose failure
every channel of the batch is terminated with the error; on success the
channels are attached to the proposal, to be completed once the entry
commits and is applied. -/
def post_propose_command (p : PeerState) (res : Except WError Unit) (header : Header)
    (data : List Nat) (chs : List Nat) (call_proposed : Bool) : PeerState :=
  match res with
  | Except.error e =>
    { p with notifications := p.notifications ++ chs.map (fun c => (c, e)) }
  | Except.ok _ =>
    { p with proposals := p.proposals ++
        [{ header := header, data := data, chs := chs, call_proposed := call_proposed }] }

/-- `Peer::propose_pending_writes`: take the pending batch if any; if
its proposed callbacks were already triggered, skip epoch re-validation;
otherwise re-check the epoch and on mismatch terminate every channel of
the batch with the epoch error, discarding the batch; otherwise encode
and submit the batch to the replicated log. -/
def propose_pending_writes (ctx : StoreContext) (p : PeerState) : PeerState :=
  match p.simple_write_encoder with
  | none => p
  | some enc =>
    let p := { p with simple_write_encoder := none }
    if enc.notify_proposed then
      post_propose_command p (proposeRes ctx) enc.header enc.buf enc.channels false
    else
      match compare_region_epoch enc.header.epoch p.region with
      | Except.error e =>
        { p with notifications := p.notifications ++ enc.channels.map (fun c => (c, e)) }
      | Except.ok _ =>
        post_propose_command p (proposeRes ctx) enc.header enc.buf enc.channels
          p.applied_to_current_term

/-- The tail of `Peer::on_simple_write` reached when no pending batch
absorbs the request: validate, flush pending writes first to maintain
propose order, defer on conflict, reject during merge, otherwise open a
new pending batch with this request. -/
def on_simple_write_cont (ctx : StoreContext) (p : PeerState) (header : Header)
    (data : List Nat) (ch : Nat) : PeerState :=
  match validate_command header p.region with
  | Except.error e =>
    { p with notifications := p.notifications ++ [(ch, e)] }
  | Except.ok _ =>
    let p := propose_pending_writes ctx p
    if p.proposal_control.conflict then
      { p with proposal_control :=
          { p.proposal_control with delayed := p.proposal_control.delayed ++ [ch] } }
    else if p.proposal_control.pending_prepare_merge || p.proposal_control.merging then
      { p with notifications := p.notifications ++ [(ch, WError.mergingMode p.region.id)] }
    else
      let enc := encoder_new header data (proposal_size_limit ctx) p.applied_to_current_term
      { p with simple_write_encoder := some (add_response_channel enc ch), has_ready := true }

/-- `Peer::on_simple_write`: reject when not serving; amend the pending
batch when the header matches; otherwise run the slow path
(`on_simple_write_cont`). -/
def on_simple_write (ctx : StoreContext) (p : PeerState) (header : Header)
    (data : List Nat) (ch : Nat) : PeerState :=
  if p.serving = false then
    { p with notifications := p.notifications ++ [(ch, WError.regionRemoved p.region.id)] }
  else
    match p.simple_write_encoder with
    | some enc =>
      let r := amend enc header data
      if r.1 then
        { p with simple_write_encoder := some (add_response_channel r.2 ch),
                 has_ready := true }
      else on_simple_write_cont ctx p header data ch
    | none => on_simple_write_cont ctx p header data ch

/-- How many terminal notifications in `l` went to channel `c`. -/
def cntNotif (l : List (Nat × WError)) (c : Nat) : Nat :=
  l.countP (fun x => x.1 == c)

/-- How many times channel `c` occurs in a channel list. -/
def cntChan (l : List Nat) (c : Nat) : Nat :=
  l.countP (fun x => x == c)

/-- How many times channel `c` sits in an optional pending batch. -/
def cntEnc : Option Encoder → Nat → Nat
  | some e, c => cntChan e.channels c
  | none, _ => 0

/-- How many times channel `c` is attached across a proposal list. -/
def cntAttach (l : List Proposal) (c : Nat) : Nat :=
  (l.map (fun pr => cntChan pr.chs c)).sum

/-- The total number of dispositions channel `c` holds in a peer state:
terminal notifications received, plus occurrences parked in the pending
batch, the deferred queue, or a submitted proposal's attachment set. -/
def dispoCount (p : PeerState) (c : Nat) : Nat :=
  cntNotif p.notifications c + cntEnc p.simple_write_encoder c +
    cntChan p.proposal_control.delayed c + cntAttach p.proposals c

/-! ## Concrete states used by witnesses and counterexamples -/

/-- An unbounded region used by concrete apply states. -/
def rgnAll : Region :=
  { id := 1, start_key := [], end_key := [], epoch := { conf_ver := 1, version := 1 } }

/-- Concrete apply state whose default-cf ModificationIndex is 5. -/
def stSkip : ApplyState :=
  { region := rgnAll, modifications := [5, 0, 0], write_batch := none, key_buffer := [],
    size_diff_hint := 0, buckets := none, importer_files := [], tablet_writes := [],
    tablet_ingested := [] }

/-- Concrete apply state over the key range `[5], [9)` with ModificationIndex 5. -/
def stNarrow : ApplyState :=
  { region := { id := 2, start_key := [5], end_key := [9],
                epoch := { conf_ver := 1, version := 1 } },
    modifications := [5, 0, 0], write_batch := none, key_buffer := [],
    size_diff_hint := 0, buckets := none, importer_files := [], tablet_writes := [],
    tablet_ingested := [] }

/-- Concrete apply state over `[5], [9)` with all ModificationIndex entries 0. -/
def stFresh : ApplyState :=
  { region := { id := 2, start_key := [5], end_key := [9],
                epoch := { conf_ver := 1, version := 1 } },
    modifications := [0, 0, 0], write_batch := none, key_buffer := [],
    size_diff_hint := 0, buckets := none, importer_files := [], tablet_writes := [],
    tablet_ingested := [] }

/-- Concrete apply state with one staged mutation, over the range `[], [5)`. -/
def stBuffered : ApplyState :=
  { region := { id := 3, start_key := [], end_key := [5],
                epoch := { conf_ver := 1, version := 1 } },
    modifications := [0, 0, 0], write_batch := some [WbOp.put "default" [122, 1] [7]],
    key_buffer := [], size_diff_hint := 0, buckets := none,
    importer_files := [{ cf := "default", start_key := [6], end_key := [9] }],
    tablet_writes := [], tablet_ingested := [] }

/-- An SST descriptor whose range lies outside `stBuffered`'s region. -/
def sstBad : SstMeta := { cf := "default", start_key := [6], end_key := [9] }

/-- An SST descriptor inside `stBuffered`'s region. -/
def sstGood : SstMeta := { cf := "default", start_key := [1], end_key := [2] }

/-! ## Claim theorems: Apply engine -/

/-- Claim C1: a call to `apply_put` or `apply_delete` whose log index is
less than or equal to the stored ModificationIndex entry for its column
family returns `Ok` and leaves the storage state (staged write buffer,
ModificationIndex table, size delta — indeed the whole state) unchanged. -/
theorem C1_skip_is_idempotent (st : ApplyState) (cf : String) (index : Nat)
    (key value : List Nat)
    (h : index ≤ st.modifications.getD (data_cf_offset cf) 0) :
    apply_put st cf index key value = (st, Except.ok ()) ∧
    apply_delete st cf index key = (st, Except.ok ()) := by
  have hs : should_skip st (data_cf_offset cf) index = true := decide_eq_true h
  constructor <;> simp [apply_put, apply_delete, hs]

/-- Witness for C1 at a concrete state: ModificationIndex 5, index 3. -/
theorem C1_skip_is_idempotent_witness :
    3 ≤ stSkip.modifications.getD (data_cf_offset "default") 0 ∧
    apply_put stSkip "default" 3 [1] [2] = (stSkip, Except.ok ()) ∧
    apply_delete stSkip "default" 3 [1] = (stSkip, Except.ok ()) :=
  ⟨by decide, (C1_skip_is_idempotent stSkip "default" 3 [1] [2] (by decide)).1,
    (C1_skip_is_idempotent stSkip "default" 3 [1] [2] (by decide)).2⟩

/-- Claim C10: the skip check precedes the key-range check, so a skipped
operation returns `Ok` even when its key lies outside the partition's
current key range — skipped operations never produce a range error. -/
theorem C10_skip_precedes_range_check (st : ApplyState) (cf : String) (index : Nat)
    (key value : List Nat)
    (hskip : index ≤ st.modifications.getD (data_cf_offset cf) 0)
    (_hout : check_key_in_region key st.region ≠ Except.ok ()) :
    apply_put st cf index key value = (st, Except.ok ()) ∧
    apply_delete st cf index key = (st, Except.ok ()) := by
  have hs : should_skip st (data_cf_offset cf) index = true := decide_eq_true hskip
  constructor <;> simp [apply_put, apply_delete, hs]

/-- Witness for C10: key `[1]` is outside `stNarrow`'s range `[5], [9)`,
yet the skipped call returns `Ok`. -/
theorem C10_skip_precedes_range_check_witness :
    3 ≤ stNarrow.modifications.getD (data_cf_offset "default") 0 ∧
    check_key_in_region [1] stNarrow.region ≠ Except.ok () ∧
    apply_put stNarrow "default" 3 [1] [2] = (stNarrow, Except.ok ()) ∧
    apply_delete stNarrow "default" 3 [1] = (stNarrow, Except.ok ()) :=
  ⟨by decide, by decide,
    (C10_skip_precedes_range_check stNarrow "default" 3 [1] [2] (by decide) (by decide)).1,
    (C10_skip_precedes_range_check stNarrow "default" 3 [1] [2] (by decide) (by decide)).2⟩

/-- Counterexample to claim C4 as stated: `apply_delete_range` at log
index 5 returns `Ok` but does NOT track the index in the
ModificationIndex table — the table still reads 0 for the default
column family afterwards. -/
theorem C4_counterexample :
    (apply_delete_range stFresh "default" 5 [5] [6] false).2 = Except.ok () ∧
    List.getD (apply_delete_range stFresh "default" 5 [5] [6] false).1.modifications
      (data_cf_offset "default") 0 = 0 := by
  decide

/-- Claim C4 (amended: the operation is accepted and performs no storage
mutation, but its log index is NOT tracked — `apply_delete_range` is a
complete no-op that returns `Ok` and leaves the state, the
ModificationIndex table included, entirely unchanged). -/
theorem C4_delete_range_is_noop (st : ApplyState) (cf : String) (index : Nat)
    (start_key end_key : Key) (notify_only : Bool) :
    apply_delete_range st cf index start_key end_key notify_only = (st, Except.ok ()) :=
  rfl

/-- Counterexample to claim C9 as stated: at log index `u64::MAX`, an
unskipped put whose key lies outside the partition's range stages
nothing into the write buffer and leaves the size delta untouched — the
claim's "the mutation is staged and the size delta is updated" fails. -/
theorem C9_counterexample :
    should_skip stFresh (data_cf_offset "default") u64MAX = false ∧
    (apply_put stFresh "default" u64MAX [1] [2]).1.write_batch = none ∧
    (apply_put stFresh "default" u64MAX [1] [2]).1.size_diff_hint = 0 ∧
    (apply_put stFresh "default" u64MAX [1] [2]).2 =
      Except.error (WError.keyNotInRegion [1] 2) := by
  decide

/-- Claim C9 (amended: for every call to `apply_put` or `apply_delete`
with log index `u64::MAX` that is not skipped AND whose key passes the
range check, the mutation is staged into the write buffer and the size
delta is updated, but the ModificationIndex entry is left unchanged). -/
theorem C9_max_index_skips_tracking (st : ApplyState) (cf : String) (key value : List Nat)
    (hns : should_skip st (data_cf_offset cf) u64MAX = false)
    (hk : check_key_in_region key st.region = Except.ok ()) :
    ((apply_put st cf u64MAX key value).2 = Except.ok () ∧
     (apply_put st cf u64MAX key value).1.modifications = st.modifications ∧
     (apply_put st cf u64MAX key value).1.write_batch =
       some (st.write_batch.getD [] ++ [WbOp.put cf (data_key key) value]) ∧
     (apply_put st cf u64MAX key value).1.size_diff_hint =
       st.size_diff_hint + (((data_key key).length + value.length : Nat) : Int)) ∧
    ((apply_delete st cf u64MAX key).2 = Except.ok () ∧
     (apply_delete st cf u64MAX key).1.modifications = st.modifications ∧
     (apply_delete st cf u64MAX key).1.write_batch =
       some (st.write_batch.getD [] ++ [WbOp.del cf (data_key key)]) ∧
     (apply_delete st cf u64MAX key).1.size_diff_hint =
       st.size_diff_hint - (((data_key key).length : Nat) : Int)) := by
  cases hb : st.buckets <;> cases hwb : st.write_batch <;>
    simp [apply_put, apply_delete, hns, hk, buckets_write_key, ensure_write_buffer, hb, hwb]

/-- Witness for C9 (amended) at a concrete in-range input. -/
theorem C9_max_index_skips_tracking_witness :
    should_skip stNarrow (data_cf_offset "default") u64MAX = false ∧
    check_key_in_region [6] stNarrow.region = Except.ok () ∧
    (apply_put stNarrow "default" u64MAX [6] [2]).1.modifications = stNarrow.modifications ∧
    (apply_put stNarrow "default" u64MAX [6] [2]).1.write_batch =
      some [WbOp.put "default" (data_key [6]) [2]] := by
  refine ⟨by decide, by decide, ?_, ?_⟩
  · exact (C9_max_index_skips_tracking stNarrow "default" [6] [2]
      (by decide) (by decide)).1.2.1
  · have h := (C9_max_index_skips_tracking stNarrow "default" [6] [2]
      (by decide) (by decide)).1.2.2.1
    simpa [stNarrow] using h

/-- The validation loop reports the first descriptor failing the range
check, together with the error, when all earlier descriptors pass. -/
theorem ingest_check_loop_err (r : Region) (pre : List SstMeta) (bad : SstMeta)
    (rest : List SstMeta) (e : WError)
    (hok : ∀ sst ∈ pre, check_sst_for_ingestion sst r = Except.ok ())
    (hbad : check_sst_for_ingestion bad r = Except.error e) :
    ingest_check_loop r (pre ++ bad :: rest) = Except.error (bad, e) := by
  induction pre with
  | nil => simp [ingest_check_loop, hbad]
  | cons a as ih =>
    have ha : check_sst_for_ingestion a r = Except.ok () := hok a (by simp)
    have has : ∀ sst ∈ as, check_sst_for_ingestion sst r = Except.ok () :=
      fun s hs => hok s (by simp [hs])
    simp [ingest_check_loop, ha, ih has]

/-- The validation loop collects the validated metadata of every
descriptor, in order, when all descriptors pass the range check. -/
theorem ingest_check_loop_ok (r : Region) (ssts : List SstMeta)
    (hok : ∀ sst ∈ ssts, check_sst_for_ingestion sst r = Except.ok ()) :
    ingest_check_loop r ssts = Except.ok (ssts.map sst_validate) := by
  induction ssts with
  | nil => simp [ingest_check_loop]
  | cons a as ih =>
    have ha : check_sst_for_ingestion a r = Except.ok () := hok a (by simp)
    have has : ∀ sst ∈ as, check_sst_for_ingestion sst r = Except.ok () :=
      fun s hs => hok s (by simp [hs])
    simp [ingest_check_loop, ha, ih has]

/-- Claim C5: when a descriptor fails the key-range validation (all
earlier ones passing), `apply_ingest` deletes that descriptor from the
importer, returns the propagated error, and mutates nothing else: no
descriptor is ingested, the staging buffer and the storage engine are
untouched. -/
theorem C5_failed_validation_aborts_ingest (st : ApplyState) (pre : List SstMeta)
    (bad : SstMeta) (rest : List SstMeta) (e : WError)
    (hok : ∀ sst ∈ pre, check_sst_for_ingestion sst st.region = Except.ok ())
    (hbad : check_sst_for_ingestion bad st.region = Except.error e) :
    apply_ingest st (pre ++ bad :: rest) =
      ({ st with importer_files := st.importer_files.erase bad }, Except.error e) := by
  simp [apply_ingest, ingest_check_loop_err st.region pre bad rest e hok hbad]

/-- Witness for C5: one out-of-range descriptor, deleted from the
importer, and the whole batch fails with the range error. -/
theorem C5_failed_validation_aborts_ingest_witness :
    check_sst_for_ingestion sstBad stBuffered.region = Except.error (WError.sstRangeError 3) ∧
    apply_ingest stBuffered [sstBad] =
      ({ stBuffered with importer_files := [] }, Except.error (WError.sstRangeError 3)) := by
  refine ⟨by decide, ?_⟩
  have h := C5_failed_validation_aborts_ingest stBuffered [] sstBad []
    (WError.sstRangeError 3) (by simp) (by decide)
  simpa [stBuffered, sstBad] using h

/-- Counterexample to claim C6 as stated: on the early-return error path
of `apply_ingest` (a descriptor failing range validation) the staging
write buffer is NOT flushed — it still holds its staged mutation and
nothing was committed to the storage engine. -/
theorem C6_counterexample :
    (apply_ingest stBuffered [sstBad]).2 = Except.error (WError.sstRangeError 3) ∧
    (apply_ingest stBuffered [sstBad]).1.write_batch =
      some [WbOp.put "default" [122, 1] [7]] ∧
    (apply_ingest stBuffered [sstBad]).1.tablet_writes = [] := by
  decide

/-- Claim C6 (amended: the staging write buffer is flushed before any
ingestion on the path where every descriptor passes range validation;
the early-return error path taken on a validation failure returns
without flushing the buffer). -/
theorem C6_flush_before_ingest (st : ApplyState) (ssts : List SstMeta)
    (hok : ∀ sst ∈ ssts, check_sst_for_ingestion sst st.region = Except.ok ()) :
    apply_ingest st ssts =
      ({ flush st with tablet_ingested := st.tablet_ingested ++ ssts.map sst_validate },
        Except.ok ()) := by
  simp [apply_ingest, ingest_check_loop_ok st.region ssts hok, flush]

/-- Witness for C6 (amended): an in-range descriptor is ingested after
the staged mutation is flushed to the storage engine. -/
theorem C6_flush_before_ingest_witness :
    check_sst_for_ingestion sstGood stBuffered.region = Except.ok () ∧
    (apply_ingest stBuffered [sstGood]).1.write_batch = none ∧
    (apply_ingest stBuffered [sstGood]).1.tablet_writes =
      [WbOp.put "default" [122, 1] [7]] ∧
    (apply_ingest stBuffered [sstGood]).1.tablet_ingested = [sstGood] := by
  have h := C6_flush_before_ingest stBuffered [sstGood]
    (by intro sst hs; simp at hs; subst hs; decide)
  refine ⟨by decide, ?_, ?_, ?_⟩ <;> rw [h] <;> simp [flush, stBuffered, sst_validate]

/-! ## Concrete peer states used by witnesses and counterexamples -/

/-- A region for the peer-side scenarios. -/
def rgnP : Region :=
  { id := 10, start_key := [], end_key := [], epoch := { conf_ver := 2, version := 3 } }

/-- A header matching `rgnP`'s id and epoch. -/
def hdrP : Header := { region_id := 10, epoch := { conf_ver := 2, version := 3 }, term := 4 }

/-- A header with a stale (older conf_ver) epoch for `rgnP`. -/
def hdrStale : Header := { region_id := 10, epoch := { conf_ver := 1, version := 3 }, term := 4 }

/-- Proposal control with no conflict and no merge in progress. -/
def pcQuiet : ProposalControl :=
  { conflict := false, pending_prepare_merge := false, merging := false, delayed := [] }

/-- A serving peer with no pending batch, no proposals, no notifications. -/
def pBase : PeerState :=
  { region := rgnP, serving := true, applied_to_current_term := true, has_ready := false,
    simple_write_encoder := none, proposal_control := pcQuiet, proposals := [],
    notifications := [] }

/-- A store context whose replicated log accepts proposals. -/
def ctxW : StoreContext := { raft_entry_max_size := 1000, propose_result := none }

/-- A pending batch with a stale epoch and two response channels. -/
def encStale : Encoder :=
  { header := hdrStale, buf := [1], channels := [21, 22], size_limit := 100,
    notify_proposed := false }

/-- A peer holding the stale two-channel batch `encStale`. -/
def pC3 : PeerState := { pBase with simple_write_encoder := some encStale }

/-- A peer that is actively merging. -/
def pC8 : PeerState := { pBase with proposal_control := { pcQuiet with merging := true } }

/-- A full batch: its buffer already reaches the size limit. -/
def encFull : Encoder :=
  { header := hdrP, buf := [1, 2, 3], channels := [], size_limit := 3,
    notify_proposed := false }

/-! ## Helper lemmas about the peer path -/

/-- `amend` never touches the batch's response channels. -/
theorem amend_channels (enc : Encoder) (header : Header) (data : List Nat) :
    ((amend enc header data).2).channels = enc.channels := by
  unfold amend; split <;> simp

/-- Flushing pending writes leaves region metadata, the serving flag,
the term flag and proposal control untouched, and always clears the
pending batch. -/
theorem propose_pending_writes_frame (ctx : StoreContext) (p : PeerState) :
    (propose_pending_writes ctx p).region = p.region ∧
    (propose_pending_writes ctx p).serving = p.serving ∧
    (propose_pending_writes ctx p).applied_to_current_term = p.applied_to_current_term ∧
    (propose_pending_writes ctx p).proposal_control = p.proposal_control ∧
    (propose_pending_writes ctx p).simple_write_encoder = none := by
  cases henc : p.simple_write_encoder with
  | none => simp [propose_pending_writes, henc]
  | some enc =>
    cases hnp : enc.notify_proposed <;> cases hpr : ctx.propose_result <;>
      simp [propose_pending_writes, henc, hnp, proposeRes, hpr, post_propose_command,
        compare_region_epoch] <;>
      split <;> simp [post_propose_command, proposeRes, hpr]

/-! ## Claim theorems: Peer write submission -/

/-- Claim C3: when the pending batch has not already triggered its
proposed callbacks and its header epoch differs from the partition's
current epoch, `propose_pending_writes` terminates every channel of the
batch with the epoch-mismatch error and discards the batch without
proposing anything (full state equality: proposals unchanged, batch
cleared, one error notification per channel). -/
theorem C3_stale_epoch_discards_batch (ctx : StoreContext) (p : PeerState) (enc : Encoder)
    (h1 : p.simple_write_encoder = some enc)
    (h2 : enc.notify_proposed = false)
    (h3 : enc.header.epoch ≠ p.region.epoch) :
    propose_pending_writes ctx p =
      { p with simple_write_encoder := none,
               notifications := p.notifications ++
                 enc.channels.map (fun c => (c, WError.epochNotMatch p.region.id)) } := by
  simp [propose_pending_writes, h1, h2, compare_region_epoch, h3]

/-- Witness for C3 at the concrete stale two-channel batch (spec
scenario C): both channels get the epoch error, nothing is proposed. -/
theorem C3_stale_epoch_discards_batch_witness :
    propose_pending_writes ctxW pC3 =
      { pC3 with simple_write_encoder := none,
                 notifications := [(21, WError.epochNotMatch 10), (22, WError.epochNotMatch 10)] } := by
  have h := C3_stale_epoch_discards_batch ctxW pC3 encStale rfl rfl (by decide)
  simpa [pC3, encStale, pBase, rgnP] using h

/-- Counterexample to claim C7 as stated: a candidate whose header's
partition id, epoch and term all match the batch's header is still
refused (returning `false`, batch unmutated) when the accumulated size
would exceed the configured limit, so "exactly when the three match" is
false. -/
theorem C7_counterexample :
    encFull.header = hdrP ∧
    amend encFull hdrP [9] = (false, encFull) := by
  constructor
  · rfl
  · decide

/-- Claim C7 (amended: `amend` returns true and appends the operation in
order exactly when the candidate header's partition id, epoch and term
all match the batch's header AND the accumulated encoded size stays
within the configured limit; whenever any of the three header fields
differs — and more generally whenever it returns false — it performs no
mutation of the batch). -/
theorem C7_amend_characterization (enc : Encoder) (header : Header) (data : List Nat) :
    ((amend enc header data).1 = true ↔
      (enc.header.region_id = header.region_id ∧ enc.header.epoch = header.epoch ∧
       enc.header.term = header.term ∧ enc.buf.length + data.length ≤ enc.size_limit)) ∧
    ((enc.header.region_id ≠ header.region_id ∨ enc.header.epoch ≠ header.epoch ∨
       enc.header.term ≠ header.term) → amend enc header data = (false, enc)) ∧
    ((amend enc header data).1 = true →
      (amend enc header data).2 =
        { enc with buf := enc.buf ++ data }) ∧
    ((amend enc header data).1 = false → (amend enc header data).2 = enc) := by
  unfold amend
  by_cases hcond : (enc.header.region_id = header.region_id ∧ enc.header.epoch = header.epoch ∧
      enc.header.term = header.term ∧ enc.buf.length + data.length ≤ enc.size_limit)
  · rw [if_pos hcond]
    refine ⟨by simp [hcond], ?_, fun _ => rfl, fun h => by simp at h⟩
    intro hdiff
    exfalso
    rcases hdiff with h | h | h
    · exact h hcond.1
    · exact h hcond.2.1
    · exact h hcond.2.2.1
  · rw [if_neg hcond]
    exact ⟨by simp [hcond], fun _ => rfl, fun h => by simp at h, fun _ => rfl⟩

/-- Witness for C7 (amended): a matching header within the size limit is
amended with the operation appended; a term mismatch is refused
unchanged. -/
theorem C7_amend_characterization_witness :
    amend encStale hdrStale [9] =
      (true, { encStale with buf := encStale.buf ++ [9] }) ∧
    amend encStale { hdrStale with term := 9 } [9] = (false, encStale) := by
  constructor
  · have h := C7_amend_characterization encStale hdrStale [9]
    have ht : (amend encStale hdrStale [9]).1 = true := h.1.mpr (by decide)
    have := h.2.2.1 ht
    cases hr : amend encStale hdrStale [9]
    · rw [hr] at ht this; simp at ht this; simp [ht, this]
  · exact (C7_amend_characterization encStale { hdrStale with term := 9 } [9]).2.1
      (by right; right; decide)

/-- Claim C8: when the request validates, the pending batch (if any)
cannot absorb it, no boundary-change conflict is pending, and the
partition has a pending prepare-merge or is merging, the response
channel is terminated immediately with the proposal-in-merging-mode
error — not deferred — and no pending batch exists afterwards. -/
theorem C8_merge_mode_rejects_immediately (ctx : StoreContext) (p : PeerState)
    (header : Header) (data : List Nat) (ch : Nat)
    (hs : p.serving = true)
    (henc : ∀ enc, p.simple_write_encoder = some enc → (amend enc header data).1 = false)
    (hv : validate_command header p.region = Except.ok ())
    (hc : p.proposal_control.conflict = false)
    (hm : p.proposal_control.pending_prepare_merge = true ∨ p.proposal_control.merging = true) :
    on_simple_write ctx p header data ch =
      { propose_pending_writes ctx p with
        notifications := (propose_pending_writes ctx p).notifications ++
          [(ch, WError.mergingMode p.region.id)] } ∧
    (on_simple_write ctx p header data ch).simple_write_encoder = none := by
  obtain ⟨hreg, -, -, hpc, hen⟩ := propose_pending_writes_frame ctx p
  have hcont : on_simple_write_cont ctx p header data ch =
      { propose_pending_writes ctx p with
        notifications := (propose_pending_writes ctx p).notifications ++
          [(ch, WError.mergingMode p.region.id)] } := by
    rcases hm with h | h <;>
      simp [on_simple_write_cont, hv, hpc, hc, h, hreg]
  have hred : on_simple_write ctx p header data ch =
      on_simple_write_cont ctx p header data ch := by
    cases hx : p.simple_write_encoder with
    | none => simp [on_simple_write, hs, hx]
    | some enc => simp [on_simple_write, hs, hx, henc enc hx]
  refine ⟨hred.trans hcont, ?_⟩
  rw [hred, hcont]
  exact hen

/-- Witness for C8: a merging peer with no pending batch rejects a valid
request immediately with the merging-mode error. -/
theorem C8_merge_mode_rejects_immediately_witness :
    on_simple_write ctxW pC8 hdrP [1] 31 =
      { pC8 with notifications := [(31, WError.mergingMode 10)] } ∧
    (on_simple_write ctxW pC8 hdrP [1] 31).simple_write_encoder = none := by
  have h := C8_merge_mode_rejects_immediately ctxW pC8 hdrP [1] 31 rfl
    (by intro enc henc; cases henc) (by decide) rfl (Or.inr rfl)
  refine ⟨?_, h.2⟩
  rw [h.1]
  simp [propose_pending_writes, pC8, pBase, rgnP]

/-- Counting notifications distributes over list append. -/
theorem cntNotif_append (a b : List (Nat × WError)) (c : Nat) :
    cntNotif (a ++ b) c = cntNotif a c + cntNotif b c := by
  simp [cntNotif, List.countP_append]

/-- One notification to channel `c` counts once for `c`. -/
theorem cntNotif_self (c : Nat) (e : WError) : cntNotif [(c, e)] c = 1 := by
  simp [cntNotif]

/-- Broadcasting one error to a channel list notifies each channel as
often as it occurs in the list. -/
theorem cntNotif_map_err (l : List Nat) (e : WError) (c : Nat) :
    cntNotif (l.map (fun x => (x, e))) c = cntChan l c := by
  induction l with
  | nil => rfl
  | cons a as ih =>
    simp only [List.map_cons, cntNotif, cntChan, List.countP_cons] at ih ⊢
    omega

/-- Counting channel occurrences distributes over list append. -/
theorem cntChan_append (a b : List Nat) (c : Nat) :
    cntChan (a ++ b) c = cntChan a c + cntChan b c := by
  simp [cntChan, List.countP_append]

/-- A singleton channel list containing `c` counts once for `c`. -/
theorem cntChan_self (c : Nat) : cntChan [c] c = 1 := by
  simp [cntChan]

/-- Counting attachments distributes over proposal-list append. -/
theorem cntAttach_append (a b : List Proposal) (c : Nat) :
    cntAttach (a ++ b) c = cntAttach a c + cntAttach b c := by
  simp [cntAttach]

/-- One proposal attaches channel `c` as often as its channel list
holds it. -/
theorem cntAttach_single (pr : Proposal) (c : Nat) :
    cntAttach [pr] c = cntChan pr.chs c := by
  simp [cntAttach]

/-- A batch holds channel `c` as often as its channel list does. -/
theorem cntEnc_some (e : Encoder) (c : Nat) : cntEnc (some e) c = cntChan e.channels c := rfl

/-- No pending batch holds no channel. -/
theorem cntEnc_none (c : Nat) : cntEnc none c = 0 := rfl

/-- Flushing pending writes conserves every channel's disposition
count: channels parked in the batch move, one for one, to either a
terminal error notification (epoch mismatch or propose failure) or a
proposal attachment; channels elsewhere are untouched. -/
theorem propose_pending_writes_dispo (ctx : StoreContext) (p : PeerState) (c : Nat) :
    dispoCount (propose_pending_writes ctx p) c = dispoCount p c := by
  cases henc : p.simple_write_encoder with
  | none => simp [propose_pending_writes, henc]
  | some enc =>
    by_cases hep : enc.header.epoch = p.region.epoch <;>
      cases hnp : enc.notify_proposed <;>
        cases hpr : ctx.propose_result <;>
          simp [propose_pending_writes, henc, hnp, proposeRes, hpr, post_propose_command,
            compare_region_epoch, hep, dispoCount, cntNotif_append, cntNotif_map_err,
            cntEnc_some, cntEnc_none, cntAttach_append, cntAttach_single] <;>
          omega

/-- The slow path of `on_simple_write` gives a previously unseen channel
exactly one disposition. -/
theorem on_simple_write_cont_dispo (ctx : StoreContext) (p : PeerState) (header : Header)
    (data : List Nat) (ch : Nat) (h0 : dispoCount p ch = 0) :
    dispoCount (on_simple_write_cont ctx p header data ch) ch = 1 := by
  cases hv : validate_command header p.region with
  | error e =>
    simp only [dispoCount] at h0
    simp [on_simple_write_cont, hv, dispoCount, cntNotif_append, cntNotif_self]
    omega
  | ok u =>
    have hq0 : dispoCount (propose_pending_writes ctx p) ch = 0 :=
      (propose_pending_writes_dispo ctx p ch).trans h0
    simp only [on_simple_write_cont, hv]
    generalize hg : propose_pending_writes ctx p = q at hq0 ⊢
    simp only [dispoCount] at hq0
    cases hcf : q.proposal_control.conflict with
    | true =>
      simp [hcf, dispoCount, cntChan_append, cntChan_self]
      omega
    | false =>
      cases hpm : q.proposal_control.pending_prepare_merge <;>
        cases hmg : q.proposal_control.merging <;>
          simp [hcf, hpm, hmg, dispoCount, cntNotif_append, cntNotif_self, cntChan_append,
            cntChan_self, cntEnc_some, add_response_channel, encoder_new] <;>
          omega

/-- Claim C2: a response channel entering the write-submission path with
no prior disposition ends `on_simple_write` with exactly one
disposition — one terminal notification, or exactly one parking place
(pending batch, deferred queue, or proposal attachment) and no
notification; and `propose_pending_writes` conserves every channel's
disposition count, so a channel is never notified twice and never
dropped. -/
theorem C2_exactly_one_disposition (ctx : StoreContext) (p : PeerState) (header : Header)
    (data : List Nat) (ch : Nat) (h0 : dispoCount p ch = 0) :
    dispoCount (on_simple_write ctx p header data ch) ch = 1 ∧
    ∀ c : Nat, dispoCount (propose_pending_writes ctx p) c = dispoCount p c := by
  refine ⟨?_, fun c => propose_pending_writes_dispo ctx p c⟩
  cases hs : p.serving
  · simp only [dispoCount] at h0
    simp [on_simple_write, hs, dispoCount, cntNotif_append, cntNotif_self]
    omega
  · cases hx : p.simple_write_encoder with
    | none =>
      have hred : on_simple_write ctx p header data ch =
          on_simple_write_cont ctx p header data ch := by
        simp [on_simple_write, hs, hx]
      rw [hred]
      exact on_simple_write_cont_dispo ctx p header data ch h0
    | some enc =>
      rcases hab : amend enc header data with ⟨b, enc2⟩
      cases b
      · have hred : on_simple_write ctx p header data ch =
            on_simple_write_cont ctx p header data ch := by
          simp [on_simple_write, hs, hx, hab]
        rw [hred]
        exact on_simple_write_cont_dispo ctx p header data ch h0
      · have hch : enc2.channels = enc.channels := by
          have h := amend_channels enc header data
          rw [hab] at h
          exact h
        simp only [dispoCount, hx, cntEnc_some] at h0
        simp [on_simple_write, hs, hx, hab, dispoCount, add_response_channel, hch,
          cntEnc_some, cntChan_append, cntChan_self]
        omega

/-- Witness for C2: a fresh channel on a clean serving peer ends with
exactly one disposition, and flushing conserves channel 5's count. -/
theorem C2_exactly_one_disposition_witness :
    dispoCount pBase 41 = 0 ∧
    dispoCount (on_simple_write ctxW pBase hdrP [1] 41) 41 = 1 ∧
    dispoCount (propose_pending_writes ctxW pBase) 5 = dispoCount pBase 5 :=
  ⟨by decide, (C2_exactly_one_disposition ctxW pBase hdrP [1] 41 (by decide)).1,
    (C2_exactly_one_disposition ctxW pBase hdrP [1] 41 (by decide)).2 5⟩

end WritePipeline
